import Mathlib

/-!
Verification of the Xinference benchmark suite (`benchmark/benchmark_suit.py`).

The development shallowly embeds the benchmark's data model and operations:

* the metrics aggregation performed in `main` (lines 206-235), with Python's
  division-by-zero exception made explicit (`pyDiv`) and `np.mean`'s NaN on an
  empty list modelled as `Option.none` (`npMean`);
* the configuration selection and the `while` loop of `main` (lines 172-238),
  with the file system and JSON decoding as an oracle
  `String → Except String Unit`;
* the concurrency fix-up and queue construction of `read_json`
  (lines 160-168);
* the bounded-concurrency dispatcher (`worker`, lines 77-97, together with the
  queue-feeding and completion behaviour of the inherited `run`, which lives in
  `benchmark_serving.py` outside the sources at hand and is modelled from the
  specification), as a small-step cooperative interleaving semantics.

Machine floats are modelled by `ℚ`; the claims under study are about the
formulas, not about rounding.
-/

namespace BenchmarkSuit

/-- One entry of `REQUEST_LATENCY` (a `(prompt_len, output_len, latency)`
triple appended by `send_request`). -/
structure Observation where
  promptLen : ℕ
  outputLen : ℕ
  latency : ℚ
deriving DecidableEq

/-- Python division: `a / b` raises `ZeroDivisionError` when `b = 0`,
otherwise yields the quotient. -/
def pyDiv (a b : ℚ) : Except String ℚ :=
  if b = 0 then Except.error "ZeroDivisionError: division by zero"
  else Except.ok (a / b)

/-- `np.mean`: the arithmetic mean of a list; on the empty list NumPy returns
NaN, modelled here as `none`. -/
def npMean (l : List ℚ) : Option ℚ :=
  if l.isEmpty then none else some (l.sum / l.length)

/-- `main`, line 206: `benchmark.num_prompts / benchmark_time`. -/
def throughput_request (num_prompts : ℕ) (benchmark_time : ℚ) : Except String ℚ :=
  pyDiv (num_prompts : ℚ) benchmark_time

/-- `main`, lines 210-212:
`sum([output_len for _, output_len, _ in REQUEST_LATENCY]) / benchmark_time`. -/
def throughput_token (log : List Observation) (benchmark_time : ℚ) : Except String ℚ :=
  pyDiv (((log.map (fun o => o.outputLen)).sum : ℕ) : ℚ) benchmark_time

/-- `main`, line 217: `np.mean([latency for _, _, latency in REQUEST_LATENCY])`. -/
def avg_latency (log : List Observation) : Option ℚ :=
  npMean (log.map (fun o => o.latency))

/-- `main`, lines 222-227:
`np.mean([latency / (prompt_len + output_len) for ...])`; the divisions in the
list comprehension are evaluated first and may raise `ZeroDivisionError`. -/
def avg_per_token_latency (log : List Observation) : Except String (Option ℚ) :=
  (log.mapM (fun o => pyDiv o.latency (((o.promptLen + o.outputLen : ℕ)) : ℚ))).map npMean

/-- `main`, lines 231-233:
`np.mean([latency / output_len for _, output_len, latency in REQUEST_LATENCY])`;
the divisions are evaluated first and may raise `ZeroDivisionError`. -/
def avg_per_output_token_latency (log : List Observation) : Except String (Option ℚ) :=
  (log.mapM (fun o => pyDiv o.latency ((o.outputLen : ℕ) : ℚ))).map npMean

/-- Closed form from the spec, §4.2:
`throughputRequestsPerSec = requestCount / elapsedSeconds`. -/
def specThroughputRequests (requestCount : ℕ) (elapsedSeconds : ℚ) : ℚ :=
  (requestCount : ℚ) / elapsedSeconds

/-- Closed form from the spec, §4.2:
`throughputTokensPerSec = sum(outputLen for each Observation) / elapsedSeconds`. -/
def specThroughputTokens (log : List Observation) (elapsedSeconds : ℚ) : ℚ :=
  (((log.map (fun o => o.outputLen)).sum : ℕ) : ℚ) / elapsedSeconds

/-- Mean of a list of rationals, as in the spec's `mean(...)`. -/
def specMean (l : List ℚ) : ℚ := l.sum / l.length

/-- Closed form from the spec, §4.2: `avgLatency = mean(latencySeconds)`. -/
def specAvgLatency (log : List Observation) : ℚ :=
  specMean (log.map (fun o => o.latency))

/-- Closed form from the spec, §4.2:
`avgPerTokenLatency = mean(latencySeconds / (promptLen + outputLen))`. -/
def specAvgPerTokenLatency (log : List Observation) : ℚ :=
  specMean (log.map (fun o => o.latency / (((o.promptLen + o.outputLen : ℕ)) : ℚ)))

/-- Closed form from the spec, §4.2:
`avgPerOutputTokenLatency = mean(latencySeconds / outputLen)`. -/
def specAvgPerOutputTokenLatency (log : List Observation) : ℚ :=
  specMean (log.map (fun o => o.latency / ((o.outputLen : ℕ) : ℚ)))

/-- When every denominator is nonzero, the Pythonic `mapM` of divisions
succeeds and returns the list of quotients. -/
theorem mapM_pyDiv_ok (f g : Observation → ℚ) (l : List Observation)
    (h : ∀ o ∈ l, g o ≠ 0) :
    l.mapM (fun o => pyDiv (f o) (g o)) =
      Except.ok (l.map (fun o => f o / g o)) := by
  induction l with
  | nil => rfl
  | cons a l ih =>
    have ha : g a ≠ 0 := h a (List.mem_cons_self a l)
    have ih' := ih (fun o ho => h o (List.mem_cons_of_mem a ho))
    rw [List.mapM_cons, ih']
    simp only [pyDiv, if_neg ha]
    rfl

/-- On a nonempty list `np.mean` is the closed-form arithmetic mean. -/
theorem npMean_eq_specMean (l : List ℚ) (h : l ≠ []) :
    npMean l = some (specMean l) := by
  unfold npMean specMean
  rw [if_neg]
  simpa using h

/-- C1: the five statistics computed by `main` (lines 206-235) equal the
closed-form definitions of spec §4.2, whenever the observation log is
nonempty, the elapsed time is nonzero, and no observation has a zero output
length or zero total token count. -/
theorem stats_eq_closed_forms (np : ℕ) (log : List Observation) (t : ℚ)
    (hlog : log ≠ []) (ht : t ≠ 0)
    (hout : ∀ o ∈ log, o.outputLen ≠ 0)
    (htot : ∀ o ∈ log, o.promptLen + o.outputLen ≠ 0) :
    throughput_request np t = Except.ok (specThroughputRequests np t) ∧
    throughput_token log t = Except.ok (specThroughputTokens log t) ∧
    avg_latency log = some (specAvgLatency log) ∧
    avg_per_token_latency log = Except.ok (some (specAvgPerTokenLatency log)) ∧
    avg_per_output_token_latency log =
      Except.ok (some (specAvgPerOutputTokenLatency log)) := by
  refine ⟨?_, ?_, ?_, ?_, ?_⟩
  · simp [throughput_request, specThroughputRequests, pyDiv, if_neg ht]
  · simp [throughput_token, specThroughputTokens, pyDiv, if_neg ht]
  · have hne : log.map (fun o => o.latency) ≠ [] := by simpa using hlog
    rw [avg_latency, npMean_eq_specMean _ hne]
    rfl
  · have hd : ∀ o ∈ log, (((o.promptLen + o.outputLen : ℕ)) : ℚ) ≠ 0 := by
      intro o ho
      exact_mod_cast htot o ho
    have hne : log.map
        (fun o => o.latency / (((o.promptLen + o.outputLen : ℕ)) : ℚ)) ≠ [] := by
      simpa using hlog
    rw [avg_per_token_latency,
      mapM_pyDiv_ok (fun o => o.latency)
        (fun o => (((o.promptLen + o.outputLen : ℕ)) : ℚ)) log hd]
    show Except.ok (npMean (log.map
      (fun o => o.latency / (((o.promptLen + o.outputLen : ℕ)) : ℚ)))) = _
    rw [npMean_eq_specMean _ hne]
    rfl
  · have hd : ∀ o ∈ log, ((o.outputLen : ℕ) : ℚ) ≠ 0 := by
      intro o ho
      exact_mod_cast hout o ho
    have hne : log.map (fun o => o.latency / ((o.outputLen : ℕ) : ℚ)) ≠ [] := by
      simpa using hlog
    rw [avg_per_output_token_latency,
      mapM_pyDiv_ok (fun o => o.latency) (fun o => ((o.outputLen : ℕ) : ℚ)) log hd]
    show Except.ok (npMean (log.map
      (fun o => o.latency / ((o.outputLen : ℕ) : ℚ)))) = _
    rw [npMean_eq_specMean _ hne]
    rfl

/-- The spec's worked scenario: three observations
`(10,5,1.0), (10,10,2.0), (20,10,1.5)` with `elapsed = 2.0`. -/
def scenarioLog : List Observation :=
  [⟨10, 5, 1⟩, ⟨10, 10, 2⟩, ⟨20, 10, 3/2⟩]

/-- Witness for C1 at the spec's worked scenario. -/
theorem stats_eq_closed_forms_witness :
    throughput_request 3 2 = Except.ok (specThroughputRequests 3 2) ∧
    throughput_token scenarioLog 2 = Except.ok (specThroughputTokens scenarioLog 2) ∧
    avg_latency scenarioLog = some (specAvgLatency scenarioLog) ∧
    avg_per_token_latency scenarioLog =
      Except.ok (some (specAvgPerTokenLatency scenarioLog)) ∧
    avg_per_output_token_latency scenarioLog =
      Except.ok (some (specAvgPerOutputTokenLatency scenarioLog)) :=
  stats_eq_closed_forms 3 scenarioLog 2 (by decide) (by decide)
    (by decide) (by decide)

/-- The message of Python's `ZeroDivisionError` as modelled by `pyDiv`. -/
def zdeMsg : String := "ZeroDivisionError: division by zero"

instance {ε α : Type} [DecidableEq ε] [DecidableEq α] : DecidableEq (Except ε α) :=
  fun a b =>
  match a, b with
  | Except.error e, Except.error f =>
    if h : e = f then Decidable.isTrue (by rw [h])
    else Decidable.isFalse (fun hh => h (Except.error.inj hh))
  | Except.ok x, Except.ok y =>
    if h : x = y then Decidable.isTrue (by rw [h])
    else Decidable.isFalse (fun hh => h (Except.ok.inj hh))
  | Except.error _, Except.ok _ => Decidable.isFalse (fun hh => Except.noConfusion hh)
  | Except.ok _, Except.error _ => Decidable.isFalse (fun hh => Except.noConfusion hh)

/-- When some denominator is zero, the Pythonic `mapM` of divisions raises
`ZeroDivisionError` (the first failing division aborts the comprehension). -/
theorem mapM_pyDiv_err (f g : Observation → ℚ) (l : List Observation)
    (h : ∃ o ∈ l, g o = 0) :
    l.mapM (fun o => pyDiv (f o) (g o)) = Except.error zdeMsg := by
  induction l with
  | nil => simp at h
  | cons a l ih =>
    by_cases ha : g a = 0
    · rw [List.mapM_cons]
      simp only [pyDiv, if_pos ha]
      rfl
    · rcases h with ⟨o, ho, hgo⟩
      rcases List.mem_cons.mp ho with h1 | h2
      · exact absurd (h1 ▸ hgo) ha
      · rw [List.mapM_cons, ih ⟨o, h2, hgo⟩]
        simp only [pyDiv, if_neg ha]
        rfl

/-- Modelled from the spec: the spec's §7 `AggregationError` is a distinguished
error class for mathematically undefined statistics; an error value counts as an
`AggregationError` when its message is that name. The benchmark code defines no
such class. -/
def isAggregationError (r : Except String (Option ℚ)) : Bool :=
  match r with
  | Except.error m => m = "AggregationError"
  | Except.ok _ => false

/-- Modelled from the spec: the alternative behaviour the spec allows — the
per-output-token mean taken over the observations whose output length is
nonzero, the offending ones excluded. -/
def excludedPerOutputTokenMean (log : List Observation) : Option ℚ :=
  npMean ((log.filter (fun o => o.outputLen != 0)).map
    (fun o => o.latency / ((o.outputLen : ℕ) : ℚ)))

/-- Claim C2's asserted behaviour for a log holding a zero-output observation:
either a descriptive `AggregationError`, or exclusion of the offending
observation from the mean. -/
def aggregationHandlesZeroOutput (log : List Observation) : Prop :=
  isAggregationError (avg_per_output_token_latency log) = true ∨
  avg_per_output_token_latency log = Except.ok (excludedPerOutputTokenMean log)

/-- A log whose single observation has `outputLen = 0`. -/
def badLog : List Observation := [⟨5, 0, 1⟩]

/-- C2, counterexample: on a log containing an observation with
`outputLen = 0`, the aggregation raises a bare `ZeroDivisionError` — it
neither produces a descriptive `AggregationError` nor excludes the offending
observation. -/
theorem aggregation_zero_output_not_handled :
    (∃ o ∈ badLog, o.outputLen = 0) ∧
    avg_per_output_token_latency badLog = Except.error zdeMsg ∧
    ¬ aggregationHandlesZeroOutput badLog := by
  refine ⟨⟨⟨5, 0, 1⟩, by decide, rfl⟩, by decide, ?_⟩
  intro h
  rcases h with h | h
  · exact absurd h (by decide)
  · exact absurd h (by decide)

/-- C2, amended: each degeneracy alone makes the corresponding statistic
raise an (uncaught) runtime `ZeroDivisionError` — an observation with zero
output length for the per-output-token mean, an observation with zero total
token count for the per-token mean, a zero elapsed time for both throughputs —
so no infinite or NaN value is ever reported for it; but the error is not a
program-defined `AggregationError`, and the offending observations are not
excluded. -/
theorem aggregation_zero_denominators_raise (log : List Observation) (t : ℚ)
    (np : ℕ) :
    ((∃ o ∈ log, o.outputLen = 0) →
      avg_per_output_token_latency log = Except.error zdeMsg) ∧
    ((∃ o ∈ log, o.promptLen + o.outputLen = 0) →
      avg_per_token_latency log = Except.error zdeMsg) ∧
    (t = 0 →
      throughput_request np t = Except.error zdeMsg ∧
      throughput_token log t = Except.error zdeMsg) := by
  refine ⟨?_, ?_, ?_⟩
  · rintro ⟨o, ho, hz⟩
    rw [avg_per_output_token_latency,
      mapM_pyDiv_err _ _ _ ⟨o, ho, by exact_mod_cast hz⟩]
    rfl
  · rintro ⟨o, ho, hz⟩
    rw [avg_per_token_latency,
      mapM_pyDiv_err _ _ _ ⟨o, ho, by exact_mod_cast hz⟩]
    rfl
  · intro h3
    constructor
    · rw [h3, throughput_request]
      simp [pyDiv, zdeMsg]
    · rw [h3, throughput_token]
      simp [pyDiv, zdeMsg]

/-- A log whose single observation has both a zero output length and a zero
total token count. -/
def badLog2 : List Observation := [⟨0, 0, 1⟩]

/-- Witness for the amended C2, discharging each condition on its own:
`badLog`'s observation `(5, 0, 1)` has zero output length but a nonzero total
token count (the spec's own outputLen = 0 scenario), `badLog2`'s observation
has a zero total token count, and the throughput conjuncts use elapsed time
zero. -/
theorem aggregation_zero_denominators_raise_witness :
    avg_per_output_token_latency badLog = Except.error zdeMsg ∧
    avg_per_token_latency badLog2 = Except.error zdeMsg ∧
    throughput_request 3 0 = Except.error zdeMsg ∧
    throughput_token badLog 0 = Except.error zdeMsg :=
  ⟨(aggregation_zero_denominators_raise badLog 1 3).1 ⟨⟨5, 0, 1⟩, by decide, rfl⟩,
   (aggregation_zero_denominators_raise badLog2 1 3).2.1 ⟨⟨0, 0, 1⟩, by decide, rfl⟩,
   ((aggregation_zero_denominators_raise badLog 0 3).2.2 rfl).1,
   ((aggregation_zero_denominators_raise badLog 0 3).2.2 rfl).2⟩

/-- `read_json`, lines 163-165: `if self.concurrency > self.num_prompts:
self.concurrency = self.num_prompts`. -/
def fix_concurrency (concurrency num_prompts : ℕ) : ℕ :=
  if concurrency > num_prompts then num_prompts else concurrency

/-- `read_json`, line 168: `asyncio.Queue(self.concurrency or 100)`, after the
clamping above; Python's `or` turns a falsy (zero) value into `100`. -/
def queue_capacity (concurrency num_prompts : ℕ) : ℕ :=
  if fix_concurrency concurrency num_prompts = 0 then 100
  else fix_concurrency concurrency num_prompts

/-- `read_json`, lines 128-133: infinite mode reuses `self.configs[0]` and
never pops; finite mode takes `self.configs.pop()`, removing the last
element. -/
def read_json_select (inf : Bool) (configs : List String) :
    Option String × List String :=
  if inf then (configs.head?, configs)
  else (configs.getLast?, configs.dropLast)

/-- `traverse_json_configs`, lines 99-106: collect the files ending in
`.json`; `walkFiles` is the sequence of file paths yielded by `os.walk`, in
discovery order. -/
def traverse_json_configs (walkFiles : List String) : List String :=
  walkFiles.filter (fun f => f.endsWith ".json")

/-- `read_file`, lines 121-125: accept a `.json` filename, otherwise log
"Invalid config file" and add nothing. -/
def read_file (filename : String) : List String × Option String :=
  if filename.endsWith ".json" then ([filename], none)
  else ([], some "Invalid config file")

/-- `main`, lines 172-181: mode dispatch on the `--file` and `--folder`
arguments; the second component is the error logged, if any. -/
def main_select (file folder : Option String) (walkFiles : List String) :
    List String × Option String :=
  match file, folder with
  | none, some _ => (traverse_json_configs walkFiles, none)
  | some f, none => read_file f
  | none, none => ([], some "Please provide a folder or a file parameter.")
  | some _, some _ =>
    ([], some "Cannot provide both folder and file parameters at the same time.")

/-- The body of `main`'s `while` loop (lines 184-238) over a list of configs
given in pop order. `fs` models what `open` plus `json.load` yield for a path;
`Except.error` is an uncaught `IOError`/`JSONDecodeError`, which propagates out
of `read_json` and aborts the loop. Returns the configs successfully
processed, in processing order, and the exception (if any) that ended the
loop. -/
def processSeq (fs : String → Except String Unit) :
    List String → List String × Option String
  | [] => ([], none)
  | c :: rest =>
    match fs c with
    | Except.error e => ([], some e)
    | Except.ok _ =>
      let p := processSeq fs rest
      (c :: p.1, p.2)

/-- `main`'s `while` loop in finite mode: `configs.pop()` consumes the list
from its end, so the processing order is the reverse of the stored order. -/
def runLoop (fs : String → Except String Unit) (configs : List String) :
    List String × Option String :=
  processSeq fs configs.reverse

/-- C4: the concurrency actually used for the worker pool is
`min(concurrency, num_prompts)` — clamped down when it exceeds the prompt
count, unchanged otherwise. -/
theorem fix_concurrency_eq_min (c n : ℕ) : fix_concurrency c n = min c n := by
  unfold fix_concurrency
  split <;> omega

/-- C7, counterexample: with configured concurrency 2 and 100 prompts the
queue's capacity is 2, which does not admit all 100 requests, so the full
request sequence cannot be pre-loaded before any worker starts. -/
theorem queue_capacity_not_all_requests :
    queue_capacity 2 100 = 2 ∧ ¬ 100 ≤ queue_capacity 2 100 := by decide

/-- C7, amended: the queue's capacity equals the effective concurrency
`min c n` (or 100 when that is zero), so it admits all `n` requests iff the
configured concurrency is at least the request count; for smaller concurrency
the producer enqueues while workers consume. -/
theorem queue_capacity_eq_effective (c n : ℕ) (hc : 1 ≤ c) (hn : 1 ≤ n) :
    queue_capacity c n = min c n ∧ (n ≤ queue_capacity c n ↔ n ≤ c) := by
  unfold queue_capacity fix_concurrency
  split_ifs <;> constructor <;> omega

/-- Witness for the amended C7 at concurrency 2 and 100 prompts. -/
theorem queue_capacity_eq_effective_witness :
    queue_capacity 2 100 = min 2 100 ∧ (100 ≤ queue_capacity 2 100 ↔ 100 ≤ 2) :=
  queue_capacity_eq_effective 2 100 (by decide) (by decide)

/-- C9: when both of `--file`/`--folder` or neither are given, `main` logs a
usage error, the configs list stays empty, and the benchmark loop performs
zero runs. -/
theorem usage_error_zero_runs (file folder : Option String)
    (walkFiles : List String) (fs : String → Except String Unit)
    (h : (file = none ∧ folder = none) ∨ (file ≠ none ∧ folder ≠ none)) :
    (main_select file folder walkFiles).2.isSome = true ∧
    (main_select file folder walkFiles).1 = [] ∧
    runLoop fs (main_select file folder walkFiles).1 = ([], none) := by
  rcases h with ⟨h1, h2⟩ | ⟨h1, h2⟩
  · subst h1
    subst h2
    exact ⟨rfl, rfl, rfl⟩
  · cases file with
    | none => exact absurd rfl h1
    | some f =>
      cases folder with
      | none => exact absurd rfl h2
      | some g => exact ⟨rfl, rfl, rfl⟩

/-- Witness for C9: both a file and a folder are given. -/
theorem usage_error_zero_runs_witness :
    (main_select (some "a.json") (some "configs") []).2.isSome = true ∧
    (main_select (some "a.json") (some "configs") []).1 = [] ∧
    runLoop (fun _ => Except.ok ()) (main_select (some "a.json") (some "configs") []).1
      = ([], none) :=
  usage_error_zero_runs (some "a.json") (some "configs") [] (fun _ => Except.ok ())
    (Or.inr ⟨fun hh => Option.noConfusion hh, fun hh => Option.noConfusion hh⟩)

/-- The file-system oracle of the C8 scenario: `good.json` decodes fine, any
other path raises a decode error. -/
def fsEx : String → Except String Unit := fun s =>
  if s = "good.json" then Except.ok ()
  else Except.error "json.decoder.JSONDecodeError: Expecting value"

/-- The configs list of the C8 scenario, in discovery order; `bad.json` is
popped first. -/
def cfgsEx : List String := ["good.json", "bad.json"]

/-- C8, counterexample: a decode error on one config file stops the loop cold:
the perfectly readable `good.json` is never processed. -/
theorem config_error_stops_later_files :
    "good.json" ∈ cfgsEx ∧
    fsEx "good.json" = Except.ok () ∧
    (runLoop fsEx cfgsEx).1 = [] ∧
    "good.json" ∉ (runLoop fsEx cfgsEx).1 := by decide

/-- C8, amended: an error while reading or decoding one config file propagates
out of `read_json` uncaught and aborts the whole `while` loop: exactly the
configs popped before the failing one are processed, and none after it. -/
theorem config_error_aborts_loop (fs : String → Except String Unit)
    (pre post : List String) (bad : String) (e : String)
    (hpre : ∀ c ∈ pre, fs c = Except.ok ())
    (hbad : fs bad = Except.error e) :
    runLoop fs (post ++ bad :: pre.reverse) = (pre, some e) := by
  have key : ∀ (l : List String), (∀ c ∈ l, fs c = Except.ok ()) →
      ∀ (sfx : List String), processSeq fs (l ++ bad :: sfx) = (l, some e) := by
    intro l
    induction l with
    | nil =>
      intro _ sfx
      simp [processSeq, hbad]
    | cons c cs ih =>
      intro hl sfx
      have hc : fs c = Except.ok () := hl c (List.mem_cons_self _ _)
      have hrec := ih (fun x hx => hl x (List.mem_cons_of_mem _ hx)) sfx
      simp [processSeq, hc, hrec]
  rw [runLoop, show (post ++ bad :: pre.reverse).reverse = pre ++ bad :: post.reverse
    by simp]
  exact key pre hpre post.reverse

/-- Witness for the amended C8: one good config before the bad one (in pop
order), one after. -/
theorem config_error_aborts_loop_witness :
    runLoop fsEx (["later.json"] ++ "bad.json" :: ["good.json"].reverse) =
      (["good.json"], some "json.decoder.JSONDecodeError: Expecting value") :=
  config_error_aborts_loop fsEx ["good.json"] ["later.json"] "bad.json"
    "json.decoder.JSONDecodeError: Expecting value"
    (fun c hc => by rw [List.mem_singleton.mp hc]; rfl) rfl

/-- C10: over a full run of the loop, configs are consumed in LIFO order
relative to `traverse_json_configs`'s discovery order (the processed sequence
is the reverse of the stored list), while in infinite mode `read_json` always
reuses the first config and removes nothing. -/
theorem config_consumption_order (fs : String → Except String Unit)
    (configs : List String) (hok : ∀ c, fs c = Except.ok ())
    (h : configs ≠ []) :
    (runLoop fs configs).1 = configs.reverse ∧
    read_json_select false configs = (some (configs.getLast h), configs.dropLast) ∧
    read_json_select true configs = (some (configs.head h), configs) := by
  refine ⟨?_, ?_, ?_⟩
  · have key : ∀ l : List String, (processSeq fs l).1 = l := by
      intro l
      induction l with
      | nil => rfl
      | cons c cs ih => simp [processSeq, hok c, ih]
    rw [runLoop, key]
  · simp [read_json_select, List.getLast?_eq_getLast _ h]
  · simp [read_json_select, List.head?_eq_head h]

/-- Witness for C10 on a two-config list. -/
theorem config_consumption_order_witness :
    (runLoop (fun _ => Except.ok ()) ["a.json", "b.json"]).1 =
      ["a.json", "b.json"].reverse ∧
    read_json_select false ["a.json", "b.json"] =
      (some (["a.json", "b.json"].getLast (by decide)), ["a.json", "b.json"].dropLast) ∧
    read_json_select true ["a.json", "b.json"] =
      (some (["a.json", "b.json"].head (by decide)), ["a.json", "b.json"]) :=
  config_consumption_order (fun _ => Except.ok ()) ["a.json", "b.json"]
    (fun _ => rfl) (by decide)

/-- `REQUEST_LATENCY` across loop iterations: it is initialized empty once in
`__init__` (line 48) and appended to during each run (`worker` passes it to
`send_request`, which records one observation per completed request); neither
`read_json` nor the loop body of `main` ever clears it, so after `k`
iterations it is the concatenation of all iterations' observations. `newObs k`
is the list of observations recorded during run `k`. -/
def request_latency_after (newObs : ℕ → List Observation) : ℕ → List Observation
  | 0 => []
  | k + 1 => request_latency_after newObs k ++ newObs k

/-- The per-run observations of the two-run leak scenario. -/
def twoRuns : ℕ → List Observation := fun k =>
  if k = 0 then [⟨10, 5, 1⟩] else [⟨20, 10, 2⟩]

/-- C3 (code bug): after two iterations the log still contains run 0's
observation, so run 1's statistics are computed over both runs — its average
latency comes out `3/2` although run 1's own observations average `2` —
whereas the single config is indeed never removed in infinite mode. -/
theorem request_latency_leaks_between_runs :
    request_latency_after twoRuns 2 = [⟨10, 5, 1⟩, ⟨20, 10, 2⟩] ∧
    request_latency_after twoRuns 2 ≠ twoRuns 1 ∧
    avg_latency (request_latency_after twoRuns 2) = some (3 / 2) ∧
    avg_latency (twoRuns 1) = some 2 ∧
    read_json_select true ["cfg.json"] = (some "cfg.json", ["cfg.json"]) := by
  have h2 : request_latency_after twoRuns 2 = [⟨10, 5, 1⟩, ⟨20, 10, 2⟩] := by
    decide
  have h1 : twoRuns 1 = [⟨20, 10, 2⟩] := by decide
  refine ⟨h2, by decide, ?_, ?_, by decide⟩
  · rw [h2]
    norm_num [avg_latency, npMean]
  · rw [h1]
    norm_num [avg_latency, npMean]

/-- A request as fed to the queue: a `(prompt, prompt_len, output_len)`
triple; `tag` stands for the prompt text and distinguishes requests. -/
structure Req where
  tag : ℕ
  promptLen : ℕ
  outputLen : ℕ
deriving DecidableEq

/-- The control point of one worker coroutine (`worker`, lines 77-97):
about to test `self.left > 0`; suspended in `await self.queue.get()`;
executing `await send_request(...)` for a request; or exited from the loop. -/
inductive WPhase where
  | atHead
  | waiting
  | running (r : Req)
  | finished
deriving DecidableEq

/-- The shared state of one dispatcher run: the producer's not yet enqueued
requests, the queue (`self.queue`) and its capacity, the remaining count
(`self.left`), the observation log (`REQUEST_LATENCY`, as the requests whose
execution completed, in completion order), and every worker's control
point. -/
structure DState where
  pending : List Req
  queue : List Req
  cap : ℕ
  left : ℕ
  log : List Req
  workers : List WPhase
deriving DecidableEq

/-- Who moves: the queue-feeding producer of `run`, or one of the workers. -/
inductive Actor where
  | producer
  | worker (i : ℕ)
deriving DecidableEq

/-- One cooperative step of the dispatcher. The worker transitions embed
`worker` (lines 77-97): testing `self.left > 0` at the loop head, dequeuing —
enabled only when the queue is nonempty, a dequeue on an empty queue suspends —
and completing `send_request`, which records the observation and decrements
`self.left` with no suspension point in between. The producer transition is
modelled from the spec: `run` (in `benchmark_serving.py`, outside the sources
at hand) feeds every request into the shared queue, bounded by its capacity. -/
inductive AStep : Actor → DState → DState → Prop where
  | put (s : DState) (r : Req) (rest : List Req)
      (hp : s.pending = r :: rest) (hq : s.queue.length < s.cap) :
      AStep Actor.producer s
        { s with pending := rest, queue := s.queue ++ [r] }
  | checkPos (s : DState) (i : ℕ)
      (hw : s.workers.get? i = some WPhase.atHead) (hl : 0 < s.left) :
      AStep (Actor.worker i) s
        { s with workers := s.workers.set i WPhase.waiting }
  | checkZero (s : DState) (i : ℕ)
      (hw : s.workers.get? i = some WPhase.atHead) (hl : s.left = 0) :
      AStep (Actor.worker i) s
        { s with workers := s.workers.set i WPhase.finished }
  | dequeue (s : DState) (i : ℕ) (r : Req) (q : List Req)
      (hw : s.workers.get? i = some WPhase.waiting) (hq : s.queue = r :: q) :
      AStep (Actor.worker i) s
        { s with workers := s.workers.set i (WPhase.running r), queue := q }
  | complete (s : DState) (i : ℕ) (r : Req)
      (hw : s.workers.get? i = some (WPhase.running r)) :
      AStep (Actor.worker i) s
        { s with workers := s.workers.set i WPhase.atHead,
                 log := s.log ++ [r], left := s.left - 1 }

/-- A step by any task. -/
def DStep (s s' : DState) : Prop := ∃ a, AStep a s s'

/-- The dispatcher's start state: all requests with the producer, the queue
empty with capacity `C` (`read_json`, line 168, for nonzero effective
concurrency), `left = len(input_requests)` (line 160), the log empty, and `C`
workers about to test the loop condition. -/
def initState (rs : List Req) (C : ℕ) : DState :=
  { pending := rs, queue := [], cap := C, left := rs.length, log := [],
    workers := List.replicate C WPhase.atHead }

/-- The states one dispatcher run can reach. -/
def Reachable (rs : List Req) (C : ℕ) (s : DState) : Prop :=
  Relation.ReflTransGen DStep (initState rs C) s

/-- Modelled from the spec: `run` (in `benchmark_serving.py`, outside the
sources at hand) defines the dispatcher's overall completion by the shared
remaining count reaching zero — not by queue emptiness. -/
def dispatcherComplete (s : DState) : Prop := s.left = 0

/-- The request a worker holds, as a multiset. -/
def phaseMS : WPhase → Multiset Req
  | WPhase.running r => {r}
  | _ => 0

/-- The requests currently held by workers. -/
def workersMS (ws : List WPhase) : Multiset Req := (ws.map phaseMS).sum

/-- Every request of the run, wherever it currently sits. -/
def reqMS (s : DState) : Multiset Req :=
  (s.pending : Multiset Req) + (s.queue : Multiset Req) +
    workersMS s.workers + (s.log : Multiset Req)

theorem workersMS_set (ws : List WPhase) (i : ℕ) (w w' : WPhase)
    (h : ws.get? i = some w) :
    workersMS (ws.set i w') + phaseMS w = workersMS ws + phaseMS w' := by
  induction ws generalizing i with
  | nil => simp at h
  | cons a l ih =>
    cases i with
    | zero =>
      simp only [List.get?] at h
      cases h
      simp only [List.set, workersMS, List.map_cons, List.sum_cons]
      abel
    | succ n =>
      simp only [List.get?] at h
      have h2 := ih n h
      simp only [List.set, workersMS, List.map_cons, List.sum_cons]
      unfold workersMS at h2
      rw [add_assoc, h2, add_assoc]

theorem workersMS_replicate (C : ℕ) :
    workersMS (List.replicate C WPhase.atHead) = 0 := by
  induction C with
  | zero => rfl
  | succ n ih =>
    rw [List.replicate_succ]
    simp only [workersMS, List.map_cons, List.sum_cons] at *
    simp [phaseMS, ih]

theorem phaseMS_le_workersMS (ws : List WPhase) (i : ℕ) (w : WPhase)
    (h : ws.get? i = some w) : phaseMS w ≤ workersMS ws := by
  induction ws generalizing i with
  | nil => simp at h
  | cons a l ih =>
    cases i with
    | zero =>
      simp only [List.get?] at h
      cases h
      simp only [workersMS, List.map_cons, List.sum_cons]
      exact self_le_add_right _ _
    | succ n =>
      simp only [List.get?] at h
      have h2 := ih n h
      simp only [workersMS, List.map_cons, List.sum_cons]
      exact h2.trans (self_le_add_left _ _)

/-- The dispatcher's run invariant: no request is created or lost, the
remaining count mirrors the number of completed executions, and the worker
pool keeps its size. -/
def DInv (rs : List Req) (C : ℕ) (s : DState) : Prop :=
  reqMS s = (rs : Multiset Req) ∧ s.left + s.log.length = rs.length ∧
    s.workers.length = C

theorem dinv_step (rs : List Req) (C : ℕ) {s s' : DState}
    (h : DInv rs C s) (hs : DStep s s') : DInv rs C s' := by
  obtain ⟨a, hst⟩ := hs
  obtain ⟨hms, hcnt, hlen⟩ := h
  cases hst with
  | put s r rest hp hq =>
    refine ⟨?_, hcnt, hlen⟩
    unfold reqMS at hms ⊢
    simp only at *
    rw [← hms, hp]
    simp only [← Multiset.coe_add, ← Multiset.cons_coe, ← Multiset.singleton_add,
      Multiset.coe_nil, add_zero]
    abel
  | checkPos s i hw hl =>
    refine ⟨?_, hcnt, by simpa using hlen⟩
    unfold reqMS at hms ⊢
    simp only at *
    have h2 := workersMS_set s.workers i WPhase.atHead WPhase.waiting hw
    simp only [phaseMS, add_zero] at h2
    rw [h2]
    exact hms
  | checkZero s i hw hl =>
    refine ⟨?_, hcnt, by simpa using hlen⟩
    unfold reqMS at hms ⊢
    simp only at *
    have h2 := workersMS_set s.workers i WPhase.atHead WPhase.finished hw
    simp only [phaseMS, add_zero] at h2
    rw [h2]
    exact hms
  | dequeue s i r q hw hq =>
    refine ⟨?_, hcnt, by simpa using hlen⟩
    unfold reqMS at hms ⊢
    simp only at *
    have h2 := workersMS_set s.workers i WPhase.waiting (WPhase.running r) hw
    simp only [phaseMS, add_zero] at h2
    rw [← hms, hq, h2]
    simp only [← Multiset.cons_coe, ← Multiset.singleton_add]
    abel
  | complete s i r hw =>
    have hWr := phaseMS_le_workersMS s.workers i (WPhase.running r) hw
    constructor
    · unfold reqMS at hms ⊢
      simp only at *
      have h2 := workersMS_set s.workers i (WPhase.running r) WPhase.atHead hw
      simp only [phaseMS, add_zero] at h2
      rw [← hms, ← Multiset.coe_add]
      rw [← h2]
      simp only [Multiset.coe_singleton]
      abel
    · constructor
      · simp only [List.length_append, List.length_cons, List.length_nil]
        have hcard := congrArg Multiset.card hms
        simp only [reqMS, Multiset.card_add, Multiset.coe_card] at hcard
        have hWpos : 0 < Multiset.card (workersMS s.workers) := by
          have := Multiset.card_le_card hWr
          simp [phaseMS] at this
          omega
        omega
      · simpa using hlen

theorem reachable_inv (rs : List Req) (C : ℕ) {s : DState}
    (h : Reachable rs C s) : DInv rs C s := by
  induction h with
  | refl =>
    refine ⟨?_, by simp [initState], by simp [initState]⟩
    simp [reqMS, initState, workersMS_replicate]
  | tail _ hbc ih => exact dinv_step rs C ih hbc

/-- C5: in every reachable dispatcher state, completion — defined, as the spec
prescribes for `run`, by the shared remaining count reaching zero — holds
exactly when all `requestCount` executions have completed; a worker waiting on
an empty queue has no enabled step of its own (its dequeue suspends rather
than spinning or erroring); and an empty queue alone never makes the
dispatcher complete while executions remain. -/
theorem dispatcher_completion_by_left (rs : List Req) (C : ℕ) (s : DState)
    (i : ℕ) (hC1 : 1 ≤ C) (hCN : C ≤ rs.length) (hr : Reachable rs C s) :
    (dispatcherComplete s ↔ s.log.length = rs.length) ∧
    (s.queue = [] → s.workers.get? i = some WPhase.waiting →
      ¬ ∃ s', AStep (Actor.worker i) s s') ∧
    (s.queue = [] → 0 < s.left → ¬ dispatcherComplete s) := by
  obtain ⟨hms, hcnt, hlen⟩ := reachable_inv rs C hr
  refine ⟨?_, ?_, ?_⟩
  · unfold dispatcherComplete
    omega
  · intro hq hw h
    obtain ⟨s', hstep⟩ := h
    cases hstep with
    | checkPos _ _ hw2 _ => rw [hw2] at hw; simp at hw
    | checkZero _ _ hw2 _ => rw [hw2] at hw; simp at hw
    | dequeue _ _ r q hw2 hq2 => rw [hq] at hq2; simp at hq2
    | complete _ _ r hw2 => rw [hw2] at hw; simp at hw
  · intro hq hl
    unfold dispatcherComplete
    omega

/-- C6: in every reachable dispatcher state where the remaining count has
reached zero, the log holds exactly `requestCount` observations and, as a
multiset, exactly the input requests: each request was dequeued and executed
by exactly one worker, one observation recorded per request, none processed
twice, none dropped. -/
theorem dispatcher_exactly_once (rs : List Req) (C : ℕ) (s : DState)
    (hC1 : 1 ≤ C) (hCN : C ≤ rs.length) (hr : Reachable rs C s)
    (hdone : s.left = 0) :
    s.log.length = rs.length ∧ (s.log : Multiset Req) = (rs : Multiset Req) := by
  obtain ⟨hms, hcnt, hlen⟩ := reachable_inv rs C hr
  have hlog : s.log.length = rs.length := by omega
  refine ⟨hlog, ?_⟩
  have hcard := congrArg Multiset.card hms
  simp only [reqMS, Multiset.card_add, Multiset.coe_card] at hcard
  have hp : s.pending = [] := by
    have : s.pending.length = 0 := by omega
    exact List.length_eq_zero.mp this
  have hq : s.queue = [] := by
    have : s.queue.length = 0 := by omega
    exact List.length_eq_zero.mp this
  have hW : workersMS s.workers = 0 := by
    have : Multiset.card (workersMS s.workers) = 0 := by omega
    exact Multiset.card_eq_zero.mp this
  rw [reqMS, hp, hq, hW] at hms
  simpa using hms

/-- A first concrete request. -/
def reqA : Req := ⟨0, 3, 4⟩

/-- A second concrete request. -/
def reqB : Req := ⟨1, 5, 6⟩

/-- Chaining a step onto a reachability proof. -/
theorem reach_step {rs : List Req} {C : ℕ} {s s' : DState}
    (h : Reachable rs C s) (hs : DStep s s') : Reachable rs C s' :=
  Relation.ReflTransGen.tail h hs

/-- A mid-run state of a two-request, two-worker dispatch: worker 0 is
executing `reqA`, worker 1 waits on the — momentarily empty — queue, and
`reqB` is still with the producer. -/
def c5state : DState :=
  { pending := [reqB], queue := [], cap := 2, left := 2, log := [],
    workers := [WPhase.running reqA, WPhase.waiting] }

theorem c5state_reachable : Reachable [reqA, reqB] 2 c5state := by
  have h0 : Reachable [reqA, reqB] 2 (initState [reqA, reqB] 2) :=
    Relation.ReflTransGen.refl
  have h1 := reach_step h0
    (show DStep (initState [reqA, reqB] 2)
        ⟨[reqA, reqB], [], 2, 2, [], [WPhase.waiting, WPhase.atHead]⟩ from
      ⟨Actor.worker 0, AStep.checkPos _ 0 rfl (by decide)⟩)
  have h2 := reach_step h1
    (show DStep ⟨[reqA, reqB], [], 2, 2, [], [WPhase.waiting, WPhase.atHead]⟩
        ⟨[reqA, reqB], [], 2, 2, [], [WPhase.waiting, WPhase.waiting]⟩ from
      ⟨Actor.worker 1, AStep.checkPos _ 1 rfl (by decide)⟩)
  have h3 := reach_step h2
    (show DStep ⟨[reqA, reqB], [], 2, 2, [], [WPhase.waiting, WPhase.waiting]⟩
        ⟨[reqB], [reqA], 2, 2, [], [WPhase.waiting, WPhase.waiting]⟩ from
      ⟨Actor.producer, AStep.put _ reqA [reqB] rfl (by decide)⟩)
  exact reach_step h3
    (show DStep ⟨[reqB], [reqA], 2, 2, [], [WPhase.waiting, WPhase.waiting]⟩
        c5state from
      ⟨Actor.worker 0, AStep.dequeue _ 0 reqA [] rfl rfl⟩)

/-- Witness for C5 at the reachable state `c5state`. -/
theorem dispatcher_completion_by_left_witness :
    (dispatcherComplete c5state ↔ c5state.log.length = [reqA, reqB].length) ∧
    (c5state.queue = [] → c5state.workers.get? 1 = some WPhase.waiting →
      ¬ ∃ s', AStep (Actor.worker 1) c5state s') ∧
    (c5state.queue = [] → 0 < c5state.left → ¬ dispatcherComplete c5state) :=
  dispatcher_completion_by_left [reqA, reqB] 2 c5state 1 (by decide) (by decide)
    c5state_reachable

/-- The final state of a two-request, one-worker dispatch: both requests
executed and logged, the remaining count at zero, the worker exited. -/
def c6state : DState :=
  { pending := [], queue := [], cap := 1, left := 0, log := [reqA, reqB],
    workers := [WPhase.finished] }

theorem c6state_reachable : Reachable [reqA, reqB] 1 c6state := by
  have h0 : Reachable [reqA, reqB] 1 (initState [reqA, reqB] 1) :=
    Relation.ReflTransGen.refl
  have h1 := reach_step h0
    (show DStep (initState [reqA, reqB] 1)
        ⟨[reqB], [reqA], 1, 2, [], [WPhase.atHead]⟩ from
      ⟨Actor.producer, AStep.put _ reqA [reqB] rfl (by decide)⟩)
  have h2 := reach_step h1
    (show DStep ⟨[reqB], [reqA], 1, 2, [], [WPhase.atHead]⟩
        ⟨[reqB], [reqA], 1, 2, [], [WPhase.waiting]⟩ from
      ⟨Actor.worker 0, AStep.checkPos _ 0 rfl (by decide)⟩)
  have h3 := reach_step h2
    (show DStep ⟨[reqB], [reqA], 1, 2, [], [WPhase.waiting]⟩
        ⟨[reqB], [], 1, 2, [], [WPhase.running reqA]⟩ from
      ⟨Actor.worker 0, AStep.dequeue _ 0 reqA [] rfl rfl⟩)
  have h4 := reach_step h3
    (show DStep ⟨[reqB], [], 1, 2, [], [WPhase.running reqA]⟩
        ⟨[], [reqB], 1, 2, [], [WPhase.running reqA]⟩ from
      ⟨Actor.producer, AStep.put _ reqB [] rfl (by decide)⟩)
  have h5 := reach_step h4
    (show DStep ⟨[], [reqB], 1, 2, [], [WPhase.running reqA]⟩
        ⟨[], [reqB], 1, 1, [reqA], [WPhase.atHead]⟩ from
      ⟨Actor.worker 0, AStep.complete _ 0 reqA rfl⟩)
  have h6 := reach_step h5
    (show DStep ⟨[], [reqB], 1, 1, [reqA], [WPhase.atHead]⟩
        ⟨[], [reqB], 1, 1, [reqA], [WPhase.waiting]⟩ from
      ⟨Actor.worker 0, AStep.checkPos _ 0 rfl (by decide)⟩)
  have h7 := reach_step h6
    (show DStep ⟨[], [reqB], 1, 1, [reqA], [WPhase.waiting]⟩
        ⟨[], [], 1, 1, [reqA], [WPhase.running reqB]⟩ from
      ⟨Actor.worker 0, AStep.dequeue _ 0 reqB [] rfl rfl⟩)
  have h8 := reach_step h7
    (show DStep ⟨[], [], 1, 1, [reqA], [WPhase.running reqB]⟩
        ⟨[], [], 1, 0, [reqA, reqB], [WPhase.atHead]⟩ from
      ⟨Actor.worker 0, AStep.complete _ 0 reqB rfl⟩)
  exact reach_step h8
    (show DStep ⟨[], [], 1, 0, [reqA, reqB], [WPhase.atHead]⟩ c6state from
      ⟨Actor.worker 0, AStep.checkZero _ 0 rfl rfl⟩)

/-- Witness for C6 at the completed state `c6state`. -/
theorem dispatcher_exactly_once_witness :
    c6state.log.length = [reqA, reqB].length ∧
    (c6state.log : Multiset Req) = ([reqA, reqB] : Multiset Req) :=
  dispatcher_exactly_once [reqA, reqB] 1 c6state (by decide) (by decide)
    c6state_reachable rfl

end BenchmarkSuit
